import Mathlib

/-!
Verification of the task-manager repository's data-access layer
(`src/database/database.ts`) and session mirror (`src/components/AppLayout.tsx`),
as a shallow embedding in Lean 4.

The database layer issues four parameterized SQL statements against a single
`tasks` table (schema: `id INTEGER PRIMARY KEY AUTOINCREMENT, title TEXT NOT NULL,
description TEXT, status TEXT DEFAULT 'pending'`).  We model the table as a list
of rows in rowid (insertion) order together with the AUTOINCREMENT counter, and
each CRUD function by the semantics of the single SQL statement it executes.
-/

namespace TaskStore

/-- A persisted row of the `tasks` table. -/
structure Task where
  id : Nat
  title : String
  description : String
  status : String
deriving DecidableEq, Repr

/-- The `tasks` table: rows in insertion (rowid) order, plus the AUTOINCREMENT
counter.  SQLite AUTOINCREMENT ids start at 1 and are never reused. -/
structure TaskTable where
  rows : List Task
  nextId : Nat
deriving DecidableEq, Repr

/-- The empty table as created by the schema statement. -/
def emptyTable : TaskTable := ⟨[], 1⟩

/-- Result object of `runAsync` (expo-sqlite): the last inserted rowid and the
number of rows affected by the statement. -/
structure RunResult where
  lastInsertRowId : Nat
  changes : Nat
deriving DecidableEq, Repr

/-- `addTask(title, description)`: executes
`INSERT INTO tasks (title, description, status) VALUES (?, ?, 'pending')`.
A fresh row with the next AUTOINCREMENT id is appended; the returned result
carries the new rowid and an affected-row count of 1. -/
def addTask (t : TaskTable) (title description : String) : TaskTable × RunResult :=
  let row : Task := ⟨t.nextId, title, description, "pending"⟩
  (⟨t.rows ++ [row], t.nextId + 1⟩, ⟨t.nextId, 1⟩)

/-- `getTasks()`: executes `SELECT * FROM tasks` and returns every row. -/
def getTasks (t : TaskTable) : List Task :=
  t.rows

/-- `getTaskById(id)`: executes `SELECT * FROM tasks WHERE id = ?` via
`getFirstAsync`, which yields the first matching row or null (here `none`). -/
def getTaskById (t : TaskTable) (id : Nat) : Option Task :=
  t.rows.find? (fun r => r.id == id)

/-- `updateTask(id, title, description, status)`: executes
`UPDATE tasks SET title = ?, description = ?, status = ? WHERE id = ?`.
Every row whose id matches is rewritten in full; the result's `changes`
counts the matched rows.  (`lastInsertRowId` is not meaningful for UPDATE;
we model it as 0.) -/
def updateTask (t : TaskTable) (id : Nat) (title description status : String) :
    TaskTable × RunResult :=
  (⟨t.rows.map (fun r => if r.id = id then ⟨r.id, title, description, status⟩ else r),
    t.nextId⟩,
   ⟨0, t.rows.countP (fun r => r.id == id)⟩)

/-- `deleteTask(id)`: executes `DELETE FROM tasks WHERE id = ?`.  Every row
whose id matches is removed; the result's `changes` counts the removed rows. -/
def deleteTask (t : TaskTable) (id : Nat) : TaskTable × RunResult :=
  (⟨t.rows.filter (fun r => !(r.id == id)), t.nextId⟩,
   ⟨0, t.rows.countP (fun r => r.id == id)⟩)

/-- A status value of the closed enumeration used by the application. -/
def validStatus (s : String) : Prop :=
  s = "pending" ∨ s = "completed"

instance (s : String) : Decidable (validStatus s) := by
  unfold validStatus; infer_instance

/-- Table states reachable from the freshly created table through the store's
mutating operations, with `updateTask` restricted to status arguments from the
closed enumeration — which is how every caller in this repository invokes it
(the UI screens type the status argument as the union `pending | completed`). -/
inductive ReachableV : TaskTable → Prop
  | init : ReachableV emptyTable
  | add (t : TaskTable) (title description : String) :
      ReachableV t → ReachableV (addTask t title description).1
  | update (t : TaskTable) (id : Nat) (title description status : String) :
      ReachableV t → validStatus status →
      ReachableV (updateTask t id title description status).1
  | delete (t : TaskTable) (id : Nat) :
      ReachableV t → ReachableV (deleteTask t id).1

/-- Well-formedness of a table: row ids are pairwise distinct and below the
AUTOINCREMENT counter.  This is SQLite's PRIMARY KEY AUTOINCREMENT invariant. -/
def wf (t : TaskTable) : Prop :=
  (t.rows.map Task.id).Nodup ∧ ∀ r ∈ t.rows, r.id < t.nextId

end TaskStore

/-!
Model of the lazy connection guard `getDb` in `src/database/database.ts`.

The module keeps two mutable variables: `db` (the cached open connection,
initially null) and `dbPromise` (the promise of an open attempt in flight,
initially null).  A call to `getDb` returns the cached connection if present,
else joins the in-flight promise if present, else starts a new open attempt:
it allocates a fresh promise whose executor runs `SQLite.openDatabaseAsync`
and then the schema-creation `execAsync`; on success it caches the connection
in `db` (the resolved promise is left in `dbPromise`), on failure of either
step it resets `dbPromise` to null and rejects.

The single-threaded event loop lets us model this as a state machine whose
events are `getDb` invocations and the resolution of the in-flight attempt.
Promise attempts are numbered; every caller that observed attempt `p` receives
exactly that promise's eventual value or rejection.
-/

namespace DbGuard

/-- An open database handle (`SQLite.SQLiteDatabase`). -/
structure Conn where
  cid : Nat
deriving DecidableEq, Repr

/-- What one `getDb()` call hands back to its caller:
either the cached connection (returned immediately, no awaiting of an open),
the promise of the attempt already in flight, or the promise of the fresh
attempt this call itself started. -/
inductive CallResult
  | cached (c : Conn)
  | joined (attempt : Nat)
  | started (attempt : Nat)
deriving DecidableEq, Repr

/-- The attempt whose promise a caller is awaiting, if any. -/
def CallResult.awaits : CallResult → Option Nat
  | .cached _ => none
  | .joined p => some p
  | .started p => some p

/-- Module-level state of `database.ts`, with instrumentation counters:
`openCalls` counts invocations of `SQLite.openDatabaseAsync` (issued when an
attempt starts, since the promise executor runs up to that call synchronously),
`schemaCalls` counts executions of the `CREATE TABLE IF NOT EXISTS` statement
(issued after the open succeeds, within the attempt). -/
structure DbState where
  db : Option Conn
  dbPromise : Option Nat
  nextAttempt : Nat
  openCalls : Nat
  schemaCalls : Nat
deriving DecidableEq, Repr

/-- The state at module load: both variables null, nothing executed. -/
def initState : DbState := ⟨none, none, 0, 0, 0⟩

/-- One invocation of `getDb()`: the three-way branch of the source. -/
def callGetDb (s : DbState) : DbState × CallResult :=
  match s.db with
  | some c => (s, .cached c)
  | none =>
    match s.dbPromise with
    | some p => (s, .joined p)
    | none =>
      ({ s with dbPromise := some s.nextAttempt,
                nextAttempt := s.nextAttempt + 1,
                openCalls := s.openCalls + 1 },
       .started s.nextAttempt)

/-- How the in-flight attempt ends: the open and the schema statement both
succeed, yielding connection `c`; the open rejects; or the open succeeds but
the schema statement rejects. -/
inductive Outcome
  | ok (c : Conn)
  | openFail
  | execFail
deriving DecidableEq, Repr

/-- Resolution of the in-flight attempt.  On success the connection is cached
and the resolved promise stays in `dbPromise`; on either failure the catch
block resets `dbPromise` to null and the promise rejects, propagating the
error to every caller awaiting it.  `db` is never written on failure. -/
def resolveAttempt (s : DbState) (o : Outcome) : DbState :=
  match o with
  | .ok c => { s with db := some c, schemaCalls := s.schemaCalls + 1 }
  | .openFail => { s with dbPromise := none }
  | .execFail => { s with dbPromise := none, schemaCalls := s.schemaCalls + 1 }

/-- `n` consecutive `getDb()` invocations (no attempt resolves in between:
the event loop runs them before the open's continuation). -/
def runCalls : Nat → DbState → DbState × List CallResult
  | 0, s => (s, [])
  | n + 1, s =>
    let p := callGetDb s
    let q := runCalls n p.1
    (q.1, p.2 :: q.2)

end DbGuard

/-!
Model of the Session Mirror in `src/components/AppLayout.tsx`.

The component mirrors a sign-in result into key-value storage under the keys
`userToken` (the bearer token) and `userInfo` (the JSON-encoded identity
object with `name`, `email`, `picture`), and keeps an in-memory copy in the
`userInfo` React state.  JSON encode/decode of the flat identity record
round-trips, so we store the decoded record directly.

Each storage call (`setItem` / `removeItem` / `getItem`) may throw; the model
takes one Boolean per storage step saying whether that step succeeds.  A step
that throws leaves its key unchanged and aborts the operation at that point
(the exception either reaches the surrounding catch or propagates).
-/

namespace SessionMirror

/-- Identity fields of the provider's user-info response. -/
structure UserInfo where
  name : String
  email : String
  picture : String
deriving DecidableEq, Repr

/-- The two key-value storage keys the mirror uses. -/
structure KVStore where
  userToken : Option String
  userInfo : Option UserInfo
deriving DecidableEq, Repr

/-- Durable storage plus the in-memory `userInfo` React state. -/
structure SessionState where
  store : KVStore
  memUserInfo : Option UserInfo
deriving DecidableEq, Repr

/-- `fetchUserInfo(accessToken)` (sign-in completion): fetches the identity
record with the token (`fetched = none` models the fetch or its JSON parse
throwing), then inside one try block sets the in-memory state, writes the
`userToken` key, and writes the `userInfo` key.  `w1`/`w2` say whether the two
storage writes succeed; a throw is caught (alert only), leaving the steps
already performed in place. -/
def fetchUserInfo (fetched : Option UserInfo) (accessToken : String)
    (w1 w2 : Bool) (s : SessionState) : SessionState :=
  match fetched with
  | none => s
  | some u =>
    let s1 : SessionState := { s with memUserInfo := some u }
    if w1 then
      let s2 : SessionState := { s1 with store.userToken := some accessToken }
      if w2 then { s2 with store.userInfo := some u } else s2
    else s1

/-- `checkStoredUser()` (startup rehydration): reads the `userInfo` key
(`readOk` says whether the read succeeds; a throw is caught and logged); if a
value is present, populates the in-memory state; absence changes nothing. -/
def checkStoredUser (readOk : Bool) (s : SessionState) : SessionState :=
  if readOk then
    match s.store.userInfo with
    | some u => { s with memUserInfo := some u }
    | none => s
  else s

/-- `handleLogout()` (sign-out): removes the `userToken` key, then the
`userInfo` key, then clears the in-memory state.  There is no try block: a
throwing `removeItem` (`d1`/`d2` false) aborts the rest of the function. -/
def handleLogout (d1 d2 : Bool) (s : SessionState) : SessionState :=
  if d1 then
    let s1 : SessionState := { s with store.userToken := none }
    if d2 then
      { s1 with store.userInfo := none, memUserInfo := none }
    else s1
  else s

/-- A cold restart: durable storage survives, React state is reinitialised
(`useState(null)`). -/
def coldRestart (s : SessionState) : SessionState :=
  { s with memUserInfo := none }

/-- The session is fully absent: neither key present, in-memory state clear. -/
def fullyAbsent (s : SessionState) : Prop :=
  s.store.userToken = none ∧ s.store.userInfo = none ∧ s.memUserInfo = none

/-- The session is fully present: both keys present, in-memory state populated. -/
def fullyPresent (s : SessionState) : Prop :=
  s.store.userToken.isSome ∧ s.store.userInfo.isSome ∧ s.memUserInfo.isSome

instance (s : SessionState) : Decidable (fullyAbsent s) := by
  unfold fullyAbsent; infer_instance

instance (s : SessionState) : Decidable (fullyPresent s) := by
  unfold fullyPresent; infer_instance

end SessionMirror

/-! ## Helper lemmas about the table model -/

namespace TaskStore

/-- An UPDATE rewrites every matching row, so looking the id up afterwards
finds the fully overwritten row. -/
theorem find?_map_update (rows : List Task) (id : Nat) (ti d st : String)
    (h : id ∈ rows.map Task.id) :
    (rows.map (fun r => if r.id = id then ⟨r.id, ti, d, st⟩ else r)).find?
      (fun r => r.id == id) = some ⟨id, ti, d, st⟩ := by
  induction rows with
  | nil => simp at h
  | cons r rs ih =>
    simp only [List.map_cons, List.mem_cons] at h
    by_cases hr : r.id = id
    · simp only [List.map_cons, if_pos hr]
      rw [List.find?_cons_of_pos _ (by simp [hr])]
      simp [hr]
    · have h' : id ∈ rs.map Task.id := by
        rcases h with h1 | h2
        · exact absurd h1.symm hr
        · exact h2
      simp only [List.map_cons, if_neg hr]
      rw [List.find?_cons_of_neg _ (by simp [hr])]
      exact ih h'

/-- A SELECT by an id no row carries yields the empty result. -/
theorem getTaskById_not_mem (t : TaskTable) (id : Nat)
    (h : id ∉ t.rows.map Task.id) :
    getTaskById t id = none := by
  unfold getTaskById
  rw [List.find?_eq_none]
  intro r hr hpr
  simp only [beq_iff_eq] at hpr
  exact h (List.mem_map.mpr ⟨r, hr, hpr⟩)

/-- No row matches an absent id. -/
theorem countP_id_of_not_mem (rows : List Task) (id : Nat)
    (h : id ∉ rows.map Task.id) :
    rows.countP (fun r => r.id == id) = 0 := by
  rw [List.countP_eq_zero]
  intro r hr hpr
  simp only [beq_iff_eq] at hpr
  exact h (List.mem_map.mpr ⟨r, hr, hpr⟩)

/-- With pairwise-distinct ids, exactly one row matches a present id. -/
theorem countP_id_of_nodup_mem (rows : List Task) (id : Nat)
    (hnd : (rows.map Task.id).Nodup) (hmem : id ∈ rows.map Task.id) :
    rows.countP (fun r => r.id == id) = 1 := by
  induction rows with
  | nil => simp at hmem
  | cons r rs ih =>
    simp only [List.map_cons, List.nodup_cons] at hnd
    simp only [List.map_cons, List.mem_cons] at hmem
    rcases hmem with h1 | h2
    · rw [List.countP_cons_of_pos _ _ (by simp [h1.symm])]
      have hz : id ∉ rs.map Task.id := by
        rw [h1]; exact hnd.1
      rw [countP_id_of_not_mem rs id hz]
    · rw [List.countP_cons_of_neg _ _ (by
        simp only [beq_iff_eq]
        intro he
        exact hnd.1 (he ▸ h2))]
      exact ih hnd.2 h2

/-- Deleting the matching rows shortens the list by the number of matches. -/
theorem length_filter_ne_add_countP (rows : List Task) (id : Nat) :
    (rows.filter (fun r => !(r.id == id))).length
        + rows.countP (fun r => r.id == id) = rows.length := by
  induction rows with
  | nil => rfl
  | cons r rs ih =>
    by_cases hr : r.id = id
    · rw [List.countP_cons_of_pos _ _ (by simp [hr])]
      have hcond : (!(r.id == id)) = false := by simp [hr]
      simp only [List.filter_cons, hcond, Bool.false_eq_true, if_false, List.length_cons]
      omega
    · rw [List.countP_cons_of_neg _ _ (by simp [hr])]
      simp only [List.filter_cons]
      have : (!(r.id == id)) = true := by simp [hr]
      rw [if_pos this]
      simp only [List.length_cons]
      omega

end TaskStore

/-! ## Task Store claims -/

namespace TaskStore

/-- C2: for every title and description (the form enforces a non-empty title
before calling the store), `addTask(title, description)` followed by
`getTasks()` yields exactly one additional row compared to the state before
the call — the list is the old list plus one appended row — and that row has
`status = pending` and the input title and description. -/
theorem addTask_then_getTasks (t : TaskTable) (title description : String)
    (h : title ≠ "") :
    getTasks (addTask t title description).1
        = getTasks t ++ [⟨t.nextId, title, description, "pending"⟩] ∧
      (getTasks (addTask t title description).1).length
        = (getTasks t).length + 1 := by
  refine ⟨rfl, ?_⟩
  simp [getTasks, addTask]

/-- Witness for C2 at a concrete input: inserting ("Buy milk", "") into the
empty table. -/
theorem addTask_then_getTasks_witness :
    getTasks (addTask emptyTable "Buy milk" "").1
        = getTasks emptyTable ++ [⟨1, "Buy milk", "", "pending"⟩] ∧
      (getTasks (addTask emptyTable "Buy milk" "").1).length
        = (getTasks emptyTable).length + 1 :=
  addTask_then_getTasks emptyTable "Buy milk" "" (by decide)

/-- C3: for every id present in the table and all title/description/status
values, `updateTask(id, t, d, s)` followed by `getTaskById(id)` returns
exactly the row `(id, t, d, s)`: all three fields are overwritten and none of
the prior values survive. -/
theorem updateTask_then_getTaskById (t : TaskTable) (id : Nat)
    (title description status : String) (h : id ∈ t.rows.map Task.id) :
    getTaskById (updateTask t id title description status).1 id
      = some ⟨id, title, description, status⟩ := by
  unfold getTaskById updateTask
  exact find?_map_update t.rows id title description status h

/-- Witness for C3 at a concrete input: overwriting the single row of a
one-row table. -/
theorem updateTask_then_getTaskById_witness :
    getTaskById (updateTask (addTask emptyTable "a" "b").1 1 "t" "d" "completed").1 1
      = some ⟨1, "t", "d", "completed"⟩ :=
  updateTask_then_getTaskById (addTask emptyTable "a" "b").1 1 "t" "d" "completed"
    (by decide)

/-- C4: for every id not present in the table, `getTaskById(id)` returns the
empty result, and `updateTask` and `deleteTask` on that id leave the table
completely unchanged (and report zero affected rows).  None of the three
statements has an error path for a missing row — "row not found" never
raises, it is an empty result or a silent no-op. -/
theorem missing_id_is_noop (t : TaskTable) (id : Nat)
    (title description status : String) (h : id ∉ t.rows.map Task.id) :
    getTaskById t id = none ∧
    (updateTask t id title description status).1 = t ∧
    (deleteTask t id).1 = t ∧
    (updateTask t id title description status).2.changes = 0 ∧
    (deleteTask t id).2.changes = 0 := by
  have hne : ∀ r ∈ t.rows, r.id ≠ id := by
    intro r hr he
    exact h (List.mem_map.mpr ⟨r, hr, he⟩)
  refine ⟨getTaskById_not_mem t id h, ?_, ?_,
    countP_id_of_not_mem t.rows id h, countP_id_of_not_mem t.rows id h⟩
  · obtain ⟨rows, nid⟩ := t
    simp only [updateTask, TaskTable.mk.injEq, and_true]
    have : rows.map (fun r => if r.id = id then (⟨r.id, title, description, status⟩ : Task) else r)
        = rows.map (fun r => r) :=
      List.map_congr_left (fun r hr => by rw [if_neg (hne r hr)])
    simpa using this
  · obtain ⟨rows, nid⟩ := t
    simp only [deleteTask, TaskTable.mk.injEq, and_true]
    rw [List.filter_eq_self]
    intro r hr
    simp [hne r hr]

/-- Witness for C4 at a concrete input: id 2 is absent from a one-row table. -/
theorem missing_id_is_noop_witness :
    getTaskById (addTask emptyTable "a" "b").1 2 = none ∧
    (updateTask (addTask emptyTable "a" "b").1 2 "t" "d" "completed").1
      = (addTask emptyTable "a" "b").1 ∧
    (deleteTask (addTask emptyTable "a" "b").1 2).1 = (addTask emptyTable "a" "b").1 ∧
    (updateTask (addTask emptyTable "a" "b").1 2 "t" "d" "completed").2.changes = 0 ∧
    (deleteTask (addTask emptyTable "a" "b").1 2).2.changes = 0 :=
  missing_id_is_noop (addTask emptyTable "a" "b").1 2 "t" "d" "completed" (by decide)

end TaskStore
namespace TaskStore

/-- C5 as stated quantifies over every id, but for an id absent from the table
`DELETE FROM tasks WHERE id = ?` matches no row, so the row count does not
decrease.  Concrete counterexample: deleting id 1 from the empty table leaves
the count at 0, refuting "the row count decreases by exactly one". -/
theorem deleteTask_missing_id_count_unchanged :
    ¬ (getTaskById (deleteTask emptyTable 1).1 1 = none ∧
       (getTasks (deleteTask emptyTable 1).1).length + 1
         = (getTasks emptyTable).length) := by
  decide

/-- C5 amended: for every id present in a table whose row ids are pairwise
distinct (the PRIMARY KEY invariant of every table SQLite produces),
`deleteTask(id)` followed by `getTaskById(id)` returns the empty result and
the row count reported by `getTasks()` decreases by exactly one. -/
theorem deleteTask_then_getTaskById (t : TaskTable) (id : Nat)
    (hnd : (t.rows.map Task.id).Nodup) (hmem : id ∈ t.rows.map Task.id) :
    getTaskById (deleteTask t id).1 id = none ∧
    (getTasks (deleteTask t id).1).length + 1 = (getTasks t).length := by
  constructor
  · unfold getTaskById deleteTask
    rw [List.find?_eq_none]
    intro r hr
    have := List.of_mem_filter hr
    simp only [Bool.not_eq_eq_eq_not, Bool.not_true] at this
    simp [this]
  · have hc := countP_id_of_nodup_mem t.rows id hnd hmem
    have hl := length_filter_ne_add_countP t.rows id
    simp only [getTasks, deleteTask]
    omega

/-- Witness for the amended C5 at a concrete input: deleting the single row of
a one-row table. -/
theorem deleteTask_then_getTaskById_witness :
    getTaskById (deleteTask (addTask emptyTable "a" "b").1 1).1 1 = none ∧
    (getTasks (deleteTask (addTask emptyTable "a" "b").1 1).1).length + 1
      = (getTasks (addTask emptyTable "a" "b").1).length :=
  deleteTask_then_getTaskById (addTask emptyTable "a" "b").1 1 (by decide) (by decide)

/-- C7 as stated is false of the Task Store itself: `updateTask` accepts an
arbitrary status string (its TypeScript parameter type is `string`) and the
UPDATE statement writes it verbatim — the schema has no CHECK constraint.
Concretely, inserting a row and updating it with status "bogus" produces a
reachable table whose row carries a status outside {pending, completed}. -/
theorem updateTask_writes_arbitrary_status :
    getTaskById (updateTask (addTask emptyTable "a" "").1 1 "a" "" "bogus").1 1
      = some ⟨1, "a", "", "bogus"⟩ ∧ ¬ validStatus "bogus" := by
  decide

/-- C7 amended: in every table state reachable through the store's operations
with the status argument of `updateTask` drawn from {pending, completed} — as
every caller in this repository draws it, the UI typing the argument as the
union `pending | completed` — every row's status belongs to the closed
enumeration; `addTask` itself only ever writes `pending`. -/
theorem reachable_status_valid (t : TaskTable) (h : ReachableV t) :
    ∀ r ∈ t.rows, validStatus r.status := by
  induction h with
  | init => simp [emptyTable]
  | add t title description h ih =>
    intro r hr
    simp only [addTask, List.mem_append, List.mem_singleton] at hr
    rcases hr with hr | hr
    · exact ih r hr
    · subst hr; left; rfl
  | update t id title description status h hst ih =>
    intro r hr
    simp only [updateTask] at hr
    rcases List.mem_map.mp hr with ⟨r0, hr0, heq⟩
    by_cases h0 : r0.id = id
    · rw [if_pos h0] at heq
      subst heq
      exact hst
    · rw [if_neg h0] at heq
      subst heq
      exact ih r0 hr0
  | delete t id h ih =>
    intro r hr
    simp only [deleteTask] at hr
    exact ih r (List.mem_of_mem_filter hr)

/-- Witness for the amended C7 at a concrete input: the row produced by one
insert into the empty table has a valid status. -/
theorem reachable_status_valid_witness :
    validStatus (Task.mk 1 "Buy milk" "" "pending").status :=
  reachable_status_valid (addTask emptyTable "Buy milk" "").1
    (ReachableV.add emptyTable "Buy milk" "" ReachableV.init)
    ⟨1, "Buy milk", "", "pending"⟩ (by simp [addTask, emptyTable])

/-- C10: `updateTask` and `deleteTask` each return the storage engine's result
object, and on a table with pairwise-distinct row ids (the PRIMARY KEY
invariant) its `changes` count is 1 exactly when a row with the given id
exists and 0 exactly when none does — so a caller can distinguish the silent
no-op on a missing id from a real mutation. -/
theorem changes_detects_missing_id (t : TaskTable) (id : Nat)
    (title description status : String)
    (hnd : (t.rows.map Task.id).Nodup) :
    (updateTask t id title description status).2.changes
        = (if id ∈ t.rows.map Task.id then 1 else 0) ∧
    (deleteTask t id).2.changes
        = (if id ∈ t.rows.map Task.id then 1 else 0) := by
  by_cases hm : id ∈ t.rows.map Task.id
  · simp [updateTask, deleteTask, hm, countP_id_of_nodup_mem t.rows id hnd hm]
  · simp [updateTask, deleteTask, hm, countP_id_of_not_mem t.rows id hm]

/-- Witness for C10 at a concrete input: a one-row table, probed at the
present id 1 (count 1) and at the absent id 2 (count 0). -/
theorem changes_detects_missing_id_witness :
    ((updateTask (addTask emptyTable "a" "b").1 1 "t" "d" "completed").2.changes
        = (if 1 ∈ (addTask emptyTable "a" "b").1.rows.map Task.id then 1 else 0) ∧
     (deleteTask (addTask emptyTable "a" "b").1 1).2.changes
        = (if 1 ∈ (addTask emptyTable "a" "b").1.rows.map Task.id then 1 else 0)) ∧
    ((updateTask (addTask emptyTable "a" "b").1 2 "t" "d" "completed").2.changes
        = (if 2 ∈ (addTask emptyTable "a" "b").1.rows.map Task.id then 1 else 0) ∧
     (deleteTask (addTask emptyTable "a" "b").1 2).2.changes
        = (if 2 ∈ (addTask emptyTable "a" "b").1.rows.map Task.id then 1 else 0)) :=
  ⟨changes_detects_missing_id (addTask emptyTable "a" "b").1 1 "t" "d" "completed"
      (by decide),
   changes_detects_missing_id (addTask emptyTable "a" "b").1 2 "t" "d" "completed"
      (by decide)⟩

end TaskStore
/-! ## Lazy-open guard claims -/

namespace DbGuard

/-- While an attempt is in flight (no cached connection, a pending promise),
every further `getDb()` call joins that same promise and changes nothing. -/
theorem runCalls_joined (n : Nat) (s : DbState) (p : Nat)
    (hdb : s.db = none) (hp : s.dbPromise = some p) :
    runCalls n s = (s, List.replicate n (.joined p)) := by
  induction n with
  | zero => rfl
  | succ n ih =>
    have hc : callGetDb s = (s, .joined p) := by
      unfold callGetDb
      rw [hdb, hp]
    simp [runCalls, hc, ih, List.replicate_succ]

/-- C1: starting from the module-load state, N ≥ 1 `getDb()` calls made before
the first open resolves issue exactly one `openDatabaseAsync` call; the first
caller starts attempt 0 and the other N−1 join it, so every caller awaits the
same promise.  When that attempt resolves successfully with connection `c`,
exactly one schema-creation statement has been executed, `c` is cached as the
shared connection every awaiting caller receives, and any later `getDb()` call
returns `c` immediately without opening again (the state, counters included,
is unchanged). -/
theorem getDb_opens_once (n : Nat) (c : Conn) (hn : 1 ≤ n) :
    (runCalls n initState).1.openCalls = 1 ∧
    (runCalls n initState).2
      = .started 0 :: List.replicate (n - 1) (.joined 0) ∧
    (∀ r ∈ (runCalls n initState).2, r.awaits = some 0) ∧
    (resolveAttempt (runCalls n initState).1 (.ok c)).schemaCalls = 1 ∧
    (resolveAttempt (runCalls n initState).1 (.ok c)).db = some c ∧
    callGetDb (resolveAttempt (runCalls n initState).1 (.ok c))
      = (resolveAttempt (runCalls n initState).1 (.ok c), .cached c) := by
  cases n with
  | zero => exact absurd hn (by decide)
  | succ m =>
    have hS : runCalls (m + 1) initState
        = (⟨none, some 0, 1, 1, 0⟩, .started 0 :: List.replicate m (.joined 0)) := by
      have hc : callGetDb initState = (⟨none, some 0, 1, 1, 0⟩, .started 0) := rfl
      have hr := runCalls_joined m ⟨none, some 0, 1, 1, 0⟩ 0 rfl rfl
      simp [runCalls, hc, hr]
    rw [hS]
    refine ⟨rfl, by simp, ?_, rfl, rfl, rfl⟩
    intro r hr
    rcases List.mem_cons.mp hr with h1 | h2
    · subst h1; rfl
    · rw [List.eq_of_mem_replicate h2]; rfl

/-- Witness for C1 at a concrete input: three concurrent calls, the attempt
resolving with connection 7. -/
theorem getDb_opens_once_witness :
    (runCalls 3 initState).1.openCalls = 1 ∧
    (runCalls 3 initState).2
      = .started 0 :: List.replicate (3 - 1) (.joined 0) ∧
    (∀ r ∈ (runCalls 3 initState).2, r.awaits = some 0) ∧
    (resolveAttempt (runCalls 3 initState).1 (.ok ⟨7⟩)).schemaCalls = 1 ∧
    (resolveAttempt (runCalls 3 initState).1 (.ok ⟨7⟩)).db = some ⟨7⟩ ∧
    callGetDb (resolveAttempt (runCalls 3 initState).1 (.ok ⟨7⟩))
      = (resolveAttempt (runCalls 3 initState).1 (.ok ⟨7⟩), .cached ⟨7⟩) :=
  getDb_opens_once 3 ⟨7⟩ (by decide)

/-- C6: if the underlying open or the schema statement fails during the first
attempt, the catch block clears the in-flight marker (`dbPromise = null`) and
caches no connection (`db` stays null); every one of the N callers was
awaiting attempt 0's promise, whose rejection propagates the failure to each
of them; and the next `getDb()` call does not return the failed attempt but
starts a fresh attempt 1, issuing a second underlying open. -/
theorem getDb_failure_clears_and_retries (n : Nat) (o : Outcome) (hn : 1 ≤ n)
    (ho : o = .openFail ∨ o = .execFail) :
    (resolveAttempt (runCalls n initState).1 o).db = none ∧
    (resolveAttempt (runCalls n initState).1 o).dbPromise = none ∧
    (∀ r ∈ (runCalls n initState).2, r.awaits = some 0) ∧
    (callGetDb (resolveAttempt (runCalls n initState).1 o)).2 = .started 1 ∧
    (callGetDb (resolveAttempt (runCalls n initState).1 o)).1.openCalls = 2 := by
  cases n with
  | zero => exact absurd hn (by decide)
  | succ m =>
    have hS : runCalls (m + 1) initState
        = (⟨none, some 0, 1, 1, 0⟩, .started 0 :: List.replicate m (.joined 0)) := by
      have hc : callGetDb initState = (⟨none, some 0, 1, 1, 0⟩, .started 0) := rfl
      have hr := runCalls_joined m ⟨none, some 0, 1, 1, 0⟩ 0 rfl rfl
      simp [runCalls, hc, hr]
    rw [hS]
    have hres : ∀ r ∈ CallResult.started 0 :: List.replicate m (.joined 0),
        CallResult.awaits r = some 0 := by
      intro r hr
      rcases List.mem_cons.mp hr with h1 | h2
      · subst h1; rfl
      · rw [List.eq_of_mem_replicate h2]; rfl
    rcases ho with ho | ho <;> subst ho <;> exact ⟨rfl, rfl, hres, rfl, rfl⟩

/-- Witness for C6 at a concrete input: two concurrent calls whose attempt's
underlying open rejects. -/
theorem getDb_failure_clears_and_retries_witness :
    (resolveAttempt (runCalls 2 initState).1 .openFail).db = none ∧
    (resolveAttempt (runCalls 2 initState).1 .openFail).dbPromise = none ∧
    (∀ r ∈ (runCalls 2 initState).2, r.awaits = some 0) ∧
    (callGetDb (resolveAttempt (runCalls 2 initState).1 .openFail)).2 = .started 1 ∧
    (callGetDb (resolveAttempt (runCalls 2 initState).1 .openFail)).1.openCalls = 2 :=
  getDb_failure_clears_and_retries 2 .openFail (by decide) (Or.inl rfl)

end DbGuard
/-! ## Session Mirror claims -/

namespace SessionMirror

/-- C8 as stated is false: `handleLogout` has no try/catch, so when the
`userToken` delete succeeds and the `userInfo` delete throws, the function
aborts with `userToken` cleared, `userInfo` still stored, and the in-memory
state still populated — a partial session, neither fully absent nor fully
present.  Concrete counterexample from a fully present session. -/
theorem signOut_partial_on_failed_delete :
    ¬ (fullyAbsent (handleLogout true false
          ⟨⟨some "tok", some ⟨"n", "e", "p"⟩⟩, some ⟨"n", "e", "p"⟩⟩) ∨
       fullyPresent (handleLogout true false
          ⟨⟨some "tok", some ⟨"n", "e", "p"⟩⟩, some ⟨"n", "e", "p"⟩⟩)) := by
  decide

/-- C8 amended: provided no individual storage write or delete fails, every
completed Session Mirror operation — sign-in completion (whether or not the
identity fetch itself succeeds), startup rehydration, and sign-out — carries
a session that is fully absent or fully present into a session that is again
fully absent or fully present; sign-out in fact always ends fully absent. -/
theorem session_all_or_nothing (s : SessionState) (fetched : Option UserInfo)
    (accessToken : String) (h : fullyAbsent s ∨ fullyPresent s) :
    (fullyAbsent (fetchUserInfo fetched accessToken true true s) ∨
       fullyPresent (fetchUserInfo fetched accessToken true true s)) ∧
    (fullyAbsent (checkStoredUser true s) ∨
       fullyPresent (checkStoredUser true s)) ∧
    fullyAbsent (handleLogout true true s) := by
  obtain ⟨⟨tok, info⟩, mem⟩ := s
  refine ⟨?_, ?_, by simp [handleLogout, fullyAbsent]⟩
  · cases fetched with
    | none => exact h
    | some u => right; simp [fetchUserInfo, fullyPresent]
  · cases info with
    | none => exact h
    | some u =>
      rcases h with h | h
      · exact absurd h.2.1 (by simp)
      · right
        refine ⟨h.1, by simp [checkStoredUser], by simp [checkStoredUser]⟩
  
/-- Witness for the amended C8 at a concrete input: a fully absent session,
a successful identity fetch, all storage steps succeeding. -/
theorem session_all_or_nothing_witness :
    (fullyAbsent (fetchUserInfo (some ⟨"n", "e", "p"⟩) "tok" true true
        ⟨⟨none, none⟩, none⟩) ∨
       fullyPresent (fetchUserInfo (some ⟨"n", "e", "p"⟩) "tok" true true
        ⟨⟨none, none⟩, none⟩)) ∧
    (fullyAbsent (checkStoredUser true ⟨⟨none, none⟩, none⟩) ∨
       fullyPresent (checkStoredUser true ⟨⟨none, none⟩, none⟩)) ∧
    fullyAbsent (handleLogout true true ⟨⟨none, none⟩, none⟩) :=
  session_all_or_nothing ⟨⟨none, none⟩, none⟩ (some ⟨"n", "e", "p"⟩) "tok"
    (Or.inl (by decide))

/-- C9: from any session state, `signOut()` followed by `restoreSession()`
yields a fully absent session; and for any identity record the fetch for a
token returns, `completeSignIn(token)` followed by a cold restart (storage
kept, in-memory state discarded) and `restoreSession()` repopulates the
in-memory session with exactly the fetched identity fields (name, email,
picture). -/
theorem signOut_and_signIn_round_trip (s s' : SessionState)
    (u : UserInfo) (accessToken : String) :
    fullyAbsent (checkStoredUser true (handleLogout true true s)) ∧
    (checkStoredUser true (coldRestart
        (fetchUserInfo (some u) accessToken true true s'))).memUserInfo = some u := by
  constructor
  · obtain ⟨⟨tok, info⟩, mem⟩ := s
    simp [handleLogout, checkStoredUser, fullyAbsent]
  · obtain ⟨⟨tok, info⟩, mem⟩ := s'
    simp [fetchUserInfo, coldRestart, checkStoredUser]

end SessionMirror
